import Mathlib

/-!
Shallow embedding of the `mysql` package of thecxx/go-mysql: the `Client`
read/write routing component (`client.go`) and the `Result` materialization
component (`database.go`).

Conventions of the embedding:
* The external database handle (`*sql.DB` connection pool) is an abstract
  type parameter `H`; the operations the code delegates to it are passed as
  function parameters.
* Go's `int32` values are modelled as `Int` together with `wrap32`, the
  two's-complement wraparound applied by `atomic.AddInt32`; Go's `%` on
  signed integers is truncated remainder, i.e. `Int.tmod`.
* Go slice indexing `xs[i]` with a possibly negative or too-large index is
  modelled by `goIndex`, returning `none` exactly when Go would panic with
  an index-out-of-range runtime error.
* Go's `error` results are modelled by `Option (GoError E)` (`none` = nil
  error), where `GoError E` is the package's sentinel errors plus verbatim
  passthrough of external errors `E`.
-/

namespace Mysql

/-- Sentinel errors declared by the package (`ErrorClientInvalidReplica`,
`ErrorResultNoColumnsFound`, `ErrorNotImplemented`) plus verbatim passthrough
of an error produced by the external driver. -/
inductive GoError (E : Type) where
  | clientInvalidReplica
  | resultNoColumnsFound
  | notImplemented
  | driver (e : E)
deriving DecidableEq, Repr

/-- Two's-complement wraparound into the `int32` range, as performed by
`atomic.AddInt32` on overflow. -/
def wrap32 (z : Int) : Int := (z + 2 ^ 31) % 2 ^ 32 - 2 ^ 31

/-- Go slice indexing `xs[i]` for a signed index: `none` models the runtime
panic Go raises when `i` is negative or not below the length. -/
def goIndex (xs : List α) (i : Int) : Option α :=
  if 0 ≤ i ∧ i < xs.length then xs.get? i.toNat else none

/-- The `Client` struct of `client.go`: one primary handle, a slice of
replica handles and the `int32` round-robin cursor. The `sync.RWMutex` has
no sequential content and is omitted. -/
structure Client (H : Type) where
  primary : H
  replicas : List H
  cursor : Int
deriving DecidableEq, Repr

/-- Method `getp` of `client.go`: the handle used for writes. -/
def Client.getp (c : Client H) : H := c.primary

/-- Method `getr` of `client.go`: read-handle selection. Returns the selected
handle (`none` models an index-out-of-range panic) together with the client
state after the call (the cursor may have been advanced by `atomic.AddInt32`,
with `int32` wraparound). -/
def Client.getr (c : Client H) : Option H × Client H :=
  let n := c.replicas.length
  if n = 0 then (some c.getp, c)
  else if n = 1 then (c.replicas.get? 0, c)
  else
    let cur := wrap32 (c.cursor + 1)
    (goIndex c.replicas (Int.tmod cur (Int.ofNat n)), { c with cursor := cur })

/-- Method `GetPrimary` of `client.go`. -/
def Client.GetPrimary (c : Client H) : H := c.getp

/-- Method `GetReplica` of `client.go`: delegates to `getr`. -/
def Client.GetReplica (c : Client H) : Option H × Client H := c.getr

/-- Method `Query` of `client.go`: `c.getr().Query(...)`. The external
query operation on the chosen handle is the parameter `run`; `none` models
the panic propagated from a failed selection. -/
def Client.Query (c : Client H) (run : H → R) : Option R × Client H :=
  let s := c.getr
  (s.1.map run, s.2)

/-- Method `QueryContext` of `client.go`: `c.getr().QueryContext(...)`. -/
def Client.QueryContext (c : Client H) (run : H → R) : Option R × Client H :=
  let s := c.getr
  (s.1.map run, s.2)

/-- Method `Exec` of `client.go`: `c.getp().Exec(...)`. -/
def Client.Exec (c : Client H) (run : H → R) : R := run c.getp

/-- Method `ExecContext` of `client.go`: `c.getp().ExecContext(...)`. -/
def Client.ExecContext (c : Client H) (run : H → R) : R := run c.getp

/-- Method `BeginTransaction` of `client.go`: `c.getp().BeginTransaction()`. -/
def Client.BeginTransaction (c : Client H) (run : H → R) : R := run c.getp

/-- Method `BeginTransactionContext` of `client.go`. -/
def Client.BeginTransactionContext (c : Client H) (run : H → R) : R := run c.getp

/-- Method `SetReplica` of `client.go`. `replica = none` models a nil
`*Config`; `openDB` is `NewDatabaseWithConfig`, the external open operation,
which either fails with a driver error or yields a new handle. Returns the
Go error (`none` = nil) and the client state after the call. -/
def Client.SetReplica (openDB : Cfg → Except E H) (c : Client H)
    (replica : Option Cfg) : Option (GoError E) × Client H :=
  match replica with
  | none => (some .clientInvalidReplica, c)
  | some cfg =>
    match openDB cfg with
    | .error e => (some (.driver e), c)
    | .ok d => (none, { c with replicas := c.replicas ++ [d] })

instance {E A : Type} [DecidableEq E] [DecidableEq A] : DecidableEq (Except E A) := fun x y =>
  match x, y with
  | .error a, .error b =>
    if h : a = b then .isTrue (by rw [h])
    else .isFalse (by intro hh; injection hh; contradiction)
  | .error _, .ok _ => .isFalse (by intro hh; exact Except.noConfusion hh)
  | .ok _, .error _ => .isFalse (by intro hh; exact Except.noConfusion hh)
  | .ok a, .ok b =>
    if h : a = b then .isTrue (by rw [h])
    else .isFalse (by intro hh; injection hh; contradiction)

/-- The `sql.Rows` cursor handed back by the external driver, as the `Result`
methods observe it: the outcome of `Columns()` (a column-name list or a
driver error), the remaining unread rows — each row the per-column raw byte
values, `none` standing for a SQL NULL — and whether `Close()` has been
called explicitly. -/
structure Rows (E : Type) where
  cols : Except E (List String)
  data : List (List (Option String))
  closed : Bool
deriving DecidableEq

/-- The `sql.Result` mutation outcome handed back by the external driver. -/
structure SqlResult (E : Type) where
  rowsAffected : Except E Int
  lastInsertId : Except E Int
deriving DecidableEq

/-- The fields of `Config` in `database.go` that `UniqId` reads; the pool
tuning knobs play no part in the claims. -/
structure Config where
  net : String
  addr : String
  dbname : String
deriving DecidableEq

/-- Method `UniqId` of `database.go`: `"%s://%s/%s"` over net, addr, dbname. -/
def Config.UniqId (c : Config) : String :=
  c.net ++ "://" ++ c.addr ++ "/" ++ c.dbname

/-- The `Database` struct of `database.go`: the external pool handle and the
config it was opened from. -/
structure Database (H : Type) where
  db : H
  cf : Config
deriving DecidableEq

/-- The `Result` struct of `database.go`: the serving handle's identifier,
an optional row cursor and an optional mutation outcome (`none` models a Go
nil). -/
structure Result (E : Type) where
  hit : String
  rows : Option (Rows E)
  result : Option (SqlResult E)
deriving DecidableEq

/-- Function `buildResult` of `database.go`. -/
def buildResult (d : Database H) (result : Option (SqlResult E)) : Result E :=
  ⟨d.cf.UniqId, none, result⟩

/-- Function `buildResultRows` of `database.go`. -/
def buildResultRows (d : Database H) (rows : Option (Rows E)) : Result E :=
  ⟨d.cf.UniqId, rows, none⟩

/-- Method `QueryContext` of `database.go`: delegates to the external
`d.db.QueryContext` — whose outcome (a possibly nil cursor and a possibly
nil error) is the parameter — and wraps the cursor via `buildResultRows`. -/
def Database.QueryContext (d : Database H)
    (outcome : Option (Rows E) × Option F) : Result E × Option F :=
  (buildResultRows d outcome.1, outcome.2)

/-- Method `Query` of `database.go`: `QueryContext` under the default
context. -/
def Database.Query (d : Database H)
    (outcome : Option (Rows E) × Option F) : Result E × Option F :=
  d.QueryContext outcome

/-- The per-column decoding step shared by `Result.Row` and `Result.Rows` in
`database.go`: a nil `sql.RawBytes` (SQL NULL) becomes `""`, any other value
becomes its string form. -/
def decodeValue : Option String → String
  | none => ""
  | some s => s

/-- The row-materialization loop body shared by `Result.Row` and
`Result.Rows`: pair each column name with the decoded scanned value. -/
def buildRow (columns : List String) (values : List (Option String)) :
    List (String × String) :=
  (columns.zip values).map fun cv => (cv.1, decodeValue cv.2)

/-- Method `Hit` of `database.go`. -/
def Result.Hit (r : Result E) : String := r.hit

/-- Method `Row` of `database.go`: first row of the set. Returns the Go
`(row, err)` pair — a nil or empty map is `[]` — together with the cursor
state after the call: on a successful read of a first row the cursor has
consumed that row and `rows.Close()` has been called. -/
def Result.Row (r : Result E) :
    Except (GoError E) (List (String × String)) × Result E :=
  match r.rows with
  | none => (.ok [], r)
  | some rs =>
    match rs.cols with
    | .error e => (.error (.driver e), r)
    | .ok columns =>
      if columns.length = 0 then (.error .resultNoColumnsFound, r)
      else
        match rs.data with
        | [] => (.ok [], r)
        | v :: rest =>
          (.ok (buildRow columns v),
            { r with rows := some { rs with data := rest, closed := true } })

/-- Method `Rows` of `database.go`: all rows of the set, in cursor order.
The cursor is iterated to exhaustion (`data` drained); `Close()` is never
called, so `closed` is unchanged. -/
def Result.Rows (r : Result E) :
    Except (GoError E) (List (List (String × String))) × Result E :=
  match r.rows with
  | none => (.ok [], r)
  | some rs =>
    match rs.cols with
    | .error e => (.error (.driver e), r)
    | .ok columns =>
      if columns.length = 0 then (.error .resultNoColumnsFound, r)
      else
        (.ok (rs.data.map (buildRow columns)),
          { r with rows := some { rs with data := [] } })

/-- Method `Unmarshal` of `database.go`: always `ErrorNotImplemented`. -/
def Result.Unmarshal (_ : Result E) : Option (GoError E) :=
  some .notImplemented

/-- Method `RowsAffected` of `database.go`: delegates to the wrapped
`sql.Result`; when that is nil (`none`) the Go method call panics with a nil
dereference, modelled by `none`. -/
def Result.RowsAffected (r : Result E) : Option (Except E Int) :=
  r.result.map fun s => s.rowsAffected

/-- Method `LastInsertId` of `database.go`: same nil-dereference behavior as
`RowsAffected`. -/
def Result.LastInsertId (r : Result E) : Option (Except E Int) :=
  r.result.map fun s => s.lastInsertId

/-- Iterated read selection: the outcomes of `m` consecutive `getr` calls on
a client, threading the client state, with the final state. -/
def Client.runGetr : Nat → Client H → List (Option H) × Client H
  | 0, c => ([], c)
  | m + 1, c =>
    let s := c.getr
    let t := Client.runGetr m s.2
    (s.1 :: t.1, t.2)

/-! Theorems. -/

/-- C1: the read-selection operation `getr` (used by `Query`, `QueryContext`
and `GetReplica`) selects the primary when the replica count is zero; selects
the single replica directly, leaving the client (in particular the cursor)
unchanged, when the replica count is one; and otherwise advances the shared
cursor by one (`atomic.AddInt32`, with int32 wraparound) and selects
`replicas[counter mod N]` under Go's signed truncated modulo, `N` being the
current replica count. -/
theorem getr_selection_cases {H : Type} (c : Client H) :
    (c.replicas.length = 0 → c.getr = (some c.primary, c)) ∧
    (c.replicas.length = 1 → c.getr = (c.replicas.get? 0, c)) ∧
    (2 ≤ c.replicas.length →
      c.getr =
        (goIndex c.replicas
            (Int.tmod (wrap32 (c.cursor + 1)) (Int.ofNat c.replicas.length)),
          { c with cursor := wrap32 (c.cursor + 1) })) := by
  refine ⟨fun h0 => ?_, fun h1 => ?_, fun h2 => ?_⟩
  · simp [Client.getr, Client.getp, h0]
  · simp [Client.getr, h1]
  · have hn0 : ¬ c.replicas.length = 0 := by omega
    have hn1 : ¬ c.replicas.length = 1 := by omega
    simp [Client.getr, hn0, hn1]

theorem getr_selection_cases_witness :
    Client.getr ⟨(5 : Nat), [], 7⟩ = (some 5, ⟨5, [], 7⟩) ∧
    Client.getr ⟨(5 : Nat), [8], 7⟩ = (some 8, ⟨5, [8], 7⟩) ∧
    Client.getr ⟨(5 : Nat), [8, 9], 7⟩ = (some 8, ⟨5, [8, 9], 8⟩) := by
  refine ⟨(getr_selection_cases _).1 rfl, (getr_selection_cases _).2.1 rfl, ?_⟩
  have h := (getr_selection_cases (⟨5, [8, 9], 7⟩ : Client Nat)).2.2 (by decide)
  rw [h]; decide

/-- C3 (code bug): read selection does not stay in range under counter
wraparound. The cursor is a signed `int32`; `atomic.AddInt32` wraps
`2147483647 + 1` to `-2147483648`, and Go's signed truncated `%` then yields
a negative index: at cursor `-2147483648` with two replicas the next call
computes index `-2147483647 tmod 2 = -1` and `replicas[-1]` panics
(selection returns `none`), contradicting the claim that the computed index
always lies in `0..N-1`. -/
theorem getr_wraparound_panics :
    (Client.getr ⟨(0 : Nat), [1, 2], 2147483647⟩).2.cursor = -2147483648 ∧
    Int.tmod (wrap32 ((-2147483648 : Int) + 1)) 2 = -1 ∧
    (Client.getr ⟨(0 : Nat), [1, 2], -2147483648⟩).1 = none := by
  decide

/-- C4: `Exec`, `ExecContext`, `BeginTransaction` and
`BeginTransactionContext` all run the delegated operation on the primary
handle, never on a replica, whatever the registered replicas are. -/
theorem writes_route_to_primary {H R : Type} (c : Client H) (run : H → R) :
    c.Exec run = run c.primary ∧
    c.ExecContext run = run c.primary ∧
    c.BeginTransaction run = run c.primary ∧
    c.BeginTransactionContext run = run c.primary :=
  ⟨rfl, rfl, rfl, rfl⟩

/-- C5: `SetReplica` on a nil config fails with `ErrorClientInvalidReplica`
and leaves the client (in particular the replica sequence) unchanged; when
opening the new handle fails the underlying error is returned verbatim and
the client is unchanged; on success the new handle is appended at the end of
the replica sequence. -/
theorem setReplica_spec {Cfg E H : Type} (openDB : Cfg → Except E H)
    (c : Client H) :
    Client.SetReplica openDB c none = (some .clientInvalidReplica, c) ∧
    (∀ cfg e, openDB cfg = .error e →
      Client.SetReplica openDB c (some cfg) = (some (.driver e), c)) ∧
    (∀ cfg d, openDB cfg = .ok d →
      Client.SetReplica openDB c (some cfg) =
        (none, { c with replicas := c.replicas ++ [d] })) := by
  refine ⟨rfl, fun cfg e h => ?_, fun cfg d h => ?_⟩ <;>
    simp [Client.SetReplica, h]

theorem setReplica_spec_witness :
    Client.SetReplica (fun _ : Unit => (Except.error "boom" : Except String Nat))
        ⟨5, [9], 0⟩ (some ()) = (some (.driver "boom"), ⟨5, [9], 0⟩) ∧
    Client.SetReplica (fun _ : Unit => (Except.ok 7 : Except String Nat))
        ⟨5, [9], 0⟩ (some ()) = (none, ⟨5, [9, 7], 0⟩) ∧
    Client.SetReplica (fun _ : Unit => (Except.ok 7 : Except String Nat))
        ⟨5, [9], 0⟩ none = (some .clientInvalidReplica, ⟨5, [9], 0⟩) :=
  ⟨(setReplica_spec _ _).2.1 () "boom" rfl,
   (setReplica_spec _ _).2.2 () 7 rfl,
   (setReplica_spec _ _).1⟩

/-- With at least two replicas and no int32 overflow, one `getr` call
advances the cursor by exactly one and selects the replica at index
`(cursor + 1) mod N`. -/
theorem getr_step {H : Type} (p : H) (rs : List H) (cur : Int)
    (h2 : 2 ≤ rs.length) (h0 : 0 ≤ cur) (hlt : cur + 1 < 2 ^ 31) :
    Client.getr ⟨p, rs, cur⟩ =
      (rs.get? ((cur.toNat + 1) % rs.length), ⟨p, rs, cur + 1⟩) := by
  have hn0 : ¬ rs.length = 0 := by omega
  have hn1 : ¬ rs.length = 1 := by omega
  have hwrap : wrap32 (cur + 1) = cur + 1 := by
    unfold wrap32
    rw [Int.emod_eq_of_lt (by omega) (by omega)]
    omega
  have hcast : cur + 1 = Int.ofNat (cur.toNat + 1) := by
    rw [Int.ofNat_eq_natCast]
    omega
  have htmod : Int.tmod (Int.ofNat (cur.toNat + 1)) (Int.ofNat rs.length) =
      Int.ofNat ((cur.toNat + 1) % rs.length) := rfl
  have hidx : goIndex rs (Int.ofNat ((cur.toNat + 1) % rs.length)) =
      rs.get? ((cur.toNat + 1) % rs.length) := by
    have hlt2 : (cur.toNat + 1) % rs.length < rs.length :=
      Nat.mod_lt _ (by omega)
    rw [goIndex, Int.ofNat_eq_natCast]
    rw [if_pos ⟨by positivity, by exact_mod_cast hlt2⟩]
    rw [Int.toNat_natCast]
  simp only [Client.getr, hn0, hn1, if_false]
  rw [hwrap, hcast, htmod, hidx]

/-- Iterating `getr` `m` times from a nonnegative cursor that stays below
`2^31` produces the selections `replicas[(cursor + 1 + k) mod N]` for
`k = 0 .. m-1` and leaves the cursor advanced by `m`. -/
theorem runGetr_spec {H : Type} (m : Nat) (p : H) (rs : List H) :
    ∀ cur : Int, 2 ≤ rs.length → 0 ≤ cur → cur + m < 2 ^ 31 →
      Client.runGetr m ⟨p, rs, cur⟩ =
        ((List.range m).map (fun k => rs.get? ((cur.toNat + 1 + k) % rs.length)),
          ⟨p, rs, cur + m⟩) := by
  induction m with
  | zero => intro cur h2 h0 hm; simp [Client.runGetr]
  | succ m ih =>
    intro cur h2 h0 hm
    have hstep := getr_step p rs cur h2 h0 (by push_cast at hm; omega)
    have ihh := ih (cur + 1) h2 (by omega) (by push_cast at hm ⊢; omega)
    simp only [Client.runGetr, hstep, ihh]
    have htn : (cur + 1).toNat = cur.toNat + 1 := by omega
    refine Prod.ext ?_ ?_
    · show rs.get? ((cur.toNat + 1) % rs.length) ::
        (List.range m).map (fun k => rs.get? (((cur + 1).toNat + 1 + k) % rs.length)) =
        (List.range (m + 1)).map (fun k => rs.get? ((cur.toNat + 1 + k) % rs.length))
      rw [List.range_succ_eq_map, List.map_cons, List.map_map]
      have htail :
          List.map (fun k => rs.get? (((cur + 1).toNat + 1 + k) % rs.length))
              (List.range m) =
          List.map ((fun k => rs.get? ((cur.toNat + 1 + k) % rs.length)) ∘ Nat.succ)
              (List.range m) := by
        refine List.map_congr_left ?_
        intro k _
        simp only [Function.comp_apply, htn]
        congr 2
        omega
      rw [htail]
    · show (⟨p, rs, cur + 1 + (m : Int)⟩ : Client H) =
        ⟨p, rs, cur + ((m + 1 : Nat) : Int)⟩
      have hcur : cur + 1 + (m : Int) = cur + ((m + 1 : Nat) : Int) := by
        push_cast
        ring
      rw [hcur]

/-- Mapping `k ↦ (s + k) mod N` over `0 .. N-1` is a permutation of
`0 .. N-1`. -/
theorem rotatedRange_perm (s N : Nat) (h1 : 1 ≤ N) :
    ((List.range N).map (fun k => (s + k) % N)).Perm (List.range N) := by
  have hnd : ((List.range N).map (fun k => (s + k) % N)).Nodup := by
    refine List.Nodup.map_on ?_ (List.nodup_range N)
    intro x hx y hy hxy
    rw [List.mem_range] at hx hy
    have hc : x ≡ y [MOD N] := Nat.ModEq.add_left_cancel' s hxy
    have := hc.eq_of_lt_of_lt hx hy
    exact this
  have hsub : ((List.range N).map (fun k => (s + k) % N)) ⊆ List.range N := by
    intro a ha
    rw [List.mem_map] at ha
    obtain ⟨k, -, rfl⟩ := ha
    rw [List.mem_range]
    exact Nat.mod_lt _ (by omega)
  have hlen : (List.range N).length ≤
      ((List.range N).map (fun k => (s + k) % N)).length := by simp
  exact (hnd.subperm hsub).perm_of_length_le hlen

/-- C2 (amended): with `N ≥ 2` replicas, a nonnegative starting cursor and
no int32 wraparound during the window (`cursor + N < 2^31`), `N` consecutive
`getr` calls select the replicas at indices `(cursor + 1 + k) mod N` for
`k = 0 .. N-1` — a cyclic, order-preserving walk — and that index list is a
permutation of `0 .. N-1`, so each replica is selected exactly once. -/
theorem roundRobin_no_overflow {H : Type} (p : H) (rs : List H) (cur : Int)
    (h2 : 2 ≤ rs.length) (h0 : 0 ≤ cur) (hm : cur + rs.length < 2 ^ 31) :
    (Client.runGetr rs.length ⟨p, rs, cur⟩).1 =
      (List.range rs.length).map
        (fun k => rs.get? ((cur.toNat + 1 + k) % rs.length)) ∧
    ((List.range rs.length).map
        (fun k => (cur.toNat + 1 + k) % rs.length)).Perm
      (List.range rs.length) := by
  constructor
  · rw [runGetr_spec rs.length p rs cur h2 h0 hm]
  · exact rotatedRange_perm (cur.toNat + 1) rs.length (by omega)

theorem roundRobin_no_overflow_witness :
    (Client.runGetr 3 ⟨(0 : Nat), [10, 20, 30], 4⟩).1 =
      (List.range 3).map (fun k => [10, 20, 30].get? ((4 + 1 + k) % 3)) ∧
    ((List.range 3).map (fun k => (4 + 1 + k) % 3)).Perm (List.range 3) :=
  roundRobin_no_overflow (0 : Nat) [10, 20, 30] 4 (by decide) (by decide)
    (by decide)

/-- C2 counterexample: the claim fails for a starting counter value the
int32 cursor can reach after wraparound. With two replicas and starting
cursor `-2`, the first of the two consecutive `getr` calls computes index
`-1 tmod 2 = -1` and panics (`none`), and the second replica is never
selected, so the two calls do not select each replica exactly once. -/
theorem roundRobin_counterexample :
    2 ≤ ([1, 2] : List Nat).length ∧
    (Client.runGetr 2 ⟨(0 : Nat), [1, 2], -2⟩).1 = [none, some 1] ∧
    ¬ (Client.runGetr 2 ⟨(0 : Nat), [1, 2], -2⟩).1.count (some 2) = 1 := by
  decide

/-- Entry `i` of a materialized row pairs column name `i` with the decoded
value of scanned value `i`. -/
theorem buildRow_get (columns : List String) (w : List (Option String)) :
    ∀ i : Nat, ∀ hi : i < columns.length, ∀ hw : i < w.length,
      (buildRow columns w).get? i =
        some (columns.get ⟨i, hi⟩, decodeValue (w.get ⟨i, hw⟩)) := by
  induction columns generalizing w with
  | nil => intro i hi hw; simp at hi
  | cons c cs ih =>
    intro i hi hw
    match w, hw with
    | v :: vs, hw2 =>
      match i, hi, hw2 with
      | 0, _, _ => rfl
      | i + 1, hi2, hw3 =>
        have := ih vs i (by simpa using hi2) (by simpa using hw3)
        simpa [buildRow, List.zip_cons_cons] using this

/-- C6: on a row-set whose cursor reports zero columns, both `Row` and
`Rows` fail with `ErrorResultNoColumnsFound`. -/
theorem noColumns_error {E : Type} (r : Result E) (rs : Rows E)
    (hr : r.rows = some rs) (hc : rs.cols = .ok []) :
    (r.Row).1 = .error .resultNoColumnsFound ∧
    (r.Rows).1 = .error .resultNoColumnsFound := by
  constructor <;> simp [Result.Row, Result.Rows, hr, hc]

theorem noColumns_error_witness :
    (((⟨"h", some ⟨.ok [], [[some "x"]], false⟩, none⟩ : Result String)).Row).1 =
      .error .resultNoColumnsFound ∧
    (((⟨"h", some ⟨.ok [], [[some "x"]], false⟩, none⟩ : Result String)).Rows).1 =
      .error .resultNoColumnsFound :=
  noColumns_error _ _ rfl rfl

/-- C7: on a row-set with a nonempty column list, `Row` materializes the
first row and `Rows` every row through the same per-column decoding, and in
any materialized row, entry `i` pairs column `i` with `""` when the scanned
value is a SQL NULL (`none`) and with the value's string form otherwise —
so a NULL column is indistinguishable from an empty string. -/
theorem null_decodes_empty {E : Type} (r : Result E) (rs : Rows E)
    (columns : List String) (v : List (Option String))
    (rest : List (List (Option String)))
    (hr : r.rows = some rs) (hc : rs.cols = .ok columns)
    (hne : columns ≠ []) (hd : rs.data = v :: rest) :
    (r.Row).1 = .ok (buildRow columns v) ∧
    (r.Rows).1 = .ok (rs.data.map (buildRow columns)) ∧
    (∀ w : List (Option String), ∀ i : Nat,
      ∀ hi : i < columns.length, ∀ hw : i < w.length,
      (buildRow columns w).get? i =
        some (columns.get ⟨i, hi⟩,
          match w.get ⟨i, hw⟩ with
          | none => ""
          | some s => s)) := by
  have hlen : ¬ columns.length = 0 := by
    cases columns with
    | nil => exact absurd rfl hne
    | cons a l => simp
  refine ⟨?_, ?_, ?_⟩
  · simp [Result.Row, hr, hc, hlen, hd]
  · simp [Result.Rows, hr, hc, hlen]
  · intro w i hi hw
    rw [buildRow_get columns w i hi hw]
    rfl

theorem null_decodes_empty_witness :
    (((⟨"h", some ⟨.ok ["a", "b"], [[none, some "x"]], false⟩, none⟩ :
        Result String)).Row).1 = .ok [("a", ""), ("b", "x")] ∧
    (((⟨"h", some ⟨.ok ["a", "b"], [[none, some "x"]], false⟩, none⟩ :
        Result String)).Rows).1 = .ok [[("a", ""), ("b", "x")]] ∧
    (buildRow ["a", "b"] [none, some "x"]).get? 0 = some ("a", "") := by
  have h := null_decodes_empty (E := String)
    ⟨"h", some ⟨.ok ["a", "b"], [[none, some "x"]], false⟩, none⟩
    ⟨.ok ["a", "b"], [[none, some "x"]], false⟩
    ["a", "b"] [none, some "x"] [] rfl rfl (by decide) rfl
  refine ⟨?_, ?_, ?_⟩
  · rw [h.1]; rfl
  · rw [h.2.1]; rfl
  · rw [h.2.2 [none, some "x"] 0 (by decide) (by decide)]
    rfl

/-- C8: a `Result` wrapping a mutation outcome (no row-set) yields an empty
mapping and no error from `Row`, and an empty sequence and no error from
`Rows`; the result itself is untouched. -/
theorem mutation_result_empty {E : Type} (r : Result E) (h : r.rows = none) :
    r.Row = (.ok [], r) ∧ r.Rows = (.ok [], r) := by
  constructor <;> simp [Result.Row, Result.Rows, h]

theorem mutation_result_empty_witness :
    (⟨"h", none, some ⟨.ok 1, .ok 2⟩⟩ : Result String).Row =
      (.ok [], ⟨"h", none, some ⟨.ok 1, .ok 2⟩⟩) ∧
    (⟨"h", none, some ⟨.ok 1, .ok 2⟩⟩ : Result String).Rows =
      (.ok [], ⟨"h", none, some ⟨.ok 1, .ok 2⟩⟩) :=
  mutation_result_empty _ rfl

/-- C9: on a row-set with a nonempty column list and at least one row, `Row`
materializes only the first row and marks the cursor closed immediately —
even when further rows (`rest`) remain unread — while `Rows` materializes
every row, drains the cursor to exhaustion and leaves its `closed` flag
untouched (never closing it early). -/
theorem row_closes_early_rows_exhausts {E : Type} (r : Result E) (rs : Rows E)
    (columns : List String) (v : List (Option String))
    (rest : List (List (Option String)))
    (hr : r.rows = some rs) (hc : rs.cols = .ok columns)
    (hne : columns ≠ []) (hd : rs.data = v :: rest) :
    r.Row = (.ok (buildRow columns v),
      { r with rows := some { rs with data := rest, closed := true } }) ∧
    r.Rows = (.ok ((v :: rest).map (buildRow columns)),
      { r with rows := some { rs with data := [], closed := rs.closed } }) := by
  have hlen : ¬ columns.length = 0 := by
    cases columns with
    | nil => exact absurd rfl hne
    | cons a l => simp
  constructor
  · simp [Result.Row, hr, hc, hlen, hd]
  · simp [Result.Rows, hr, hc, hlen, hd]

theorem row_closes_early_rows_exhausts_witness :
    (⟨"h", some ⟨.ok ["a"], [[some "1"], [some "2"]], false⟩, none⟩ :
        Result String).Row =
      (.ok [("a", "1")], ⟨"h", some ⟨.ok ["a"], [[some "2"]], true⟩, none⟩) ∧
    (⟨"h", some ⟨.ok ["a"], [[some "1"], [some "2"]], false⟩, none⟩ :
        Result String).Rows =
      (.ok [[("a", "1")], [("a", "2")]],
        ⟨"h", some ⟨.ok ["a"], [], false⟩, none⟩) := by
  have h := row_closes_early_rows_exhausts (E := String)
    ⟨"h", some ⟨.ok ["a"], [[some "1"], [some "2"]], false⟩, none⟩
    ⟨.ok ["a"], [[some "1"], [some "2"]], false⟩
    ["a"] [some "1"] [[some "2"]] rfl rfl (by decide) rfl
  exact ⟨h.1, h.2⟩

/-- C10: every `Result` built from a row cursor — as all `Query` and
`QueryContext` paths build it via `buildResultRows` — carries a nil
(`none`) mutation outcome, so `RowsAffected` and `LastInsertId` hit a nil
dereference (`none`, a runtime panic) instead of returning an error. -/
theorem query_result_outcome_nil {H E : Type} (d : Database H)
    (rows : Option (Rows E)) :
    (buildResultRows d rows).result = none ∧
    (buildResultRows d rows).RowsAffected = none ∧
    (buildResultRows d rows).LastInsertId = none ∧
    (∀ F : Type, ∀ outcome : Option (Rows E) × Option F,
      ((d.QueryContext outcome).1).result = none ∧
      ((d.Query outcome).1).RowsAffected = none ∧
      ((d.Query outcome).1).LastInsertId = none) :=
  ⟨rfl, rfl, rfl, fun _ _ => ⟨rfl, rfl, rfl⟩⟩

end Mysql
